import Mathlib

/-!
Verification of the four-tier adaptive memory subsystem

A shallow embedding of the memory subsystem in `src/memory_systems/`:
`short_term_memory.py`, `long_term_memory.py`, `episodic_memory.py`,
`semantic_memory.py` and `memory_manager.py`.

Modelling conventions, used throughout:

* The embedding models the deterministic in-process fallback path of every
  tier (the `else` branches taken when no Redis/PostgreSQL/ChromaDB/Neo4j
  client is available), which is the path exercised by the repository's
  tests and the one the spec's semantics sections describe.
* Wall-clock instants (`datetime.now()`) are threaded explicitly as a
  `now : ℚ` parameter measured in seconds; ISO-8601 timestamp strings are
  modelled by the instant they denote (ISO-8601 lexicographic order agrees
  with chronological order).
* Python dicts are association lists with unique keys, insertion-ordered;
  `dict.update`, key lookup and `del` are modelled by `aset`, `alookup`
  and `adel` below, which preserve insertion order exactly as CPython does.
* The opaque payload values carried inside `context` maps are modelled as
  strings: the source only ever compares them for equality or renders them
  into text, never inspects their structure.
* `json.dumps`/`json.loads` round-tripping on store/get is modelled as the
  identity on the stored value.
* Python floats are modelled as exact rationals; `round(x, 3)` is modelled
  as round-half-to-even at three decimal places (`pyRound3`).
-/

/-! ## Python dict primitives (insertion-ordered association lists) -/

/-- Lookup `d[k]` / `d.get(k)`: first value bound to `k`. -/
def alookup (k : String) : List (String × β) → Option β
  | [] => none
  | (k', v) :: rest => if k' = k then some v else alookup k rest

/-- Assignment `d[k] = v`: replace the value in place if the key exists, else append
(CPython dict assignment preserves insertion order). -/
def aset (k : String) (v : β) : List (String × β) → List (String × β)
  | [] => [(k, v)]
  | (k', v') :: rest => if k' = k then (k, v) :: rest else (k', v') :: aset k v rest

/-- Deletion `del d[k]`: drop the binding for `k`. -/
def adel (k : String) (l : List (String × β)) : List (String × β) :=
  l.filter (fun p => p.1 ≠ k)

/-- Update `d.update(u)`: key-wise last-write-wins merge of `u` into `d`. -/
def dictUpdate (d u : List (String × β)) : List (String × β) :=
  u.foldl (fun acc p => aset p.1 p.2 acc) d

@[simp] theorem alookup_nil (k : String) : alookup k ([] : List (String × β)) = none := rfl

@[simp] theorem alookup_aset_self (k : String) (v : β) (l : List (String × β)) :
    alookup k (aset k v l) = some v := by
  induction l with
  | nil => simp [aset, alookup]
  | cons p rest ih =>
      obtain ⟨k', v'⟩ := p
      by_cases h : k' = k
      · simp [aset, alookup, h]
      · simp [aset, alookup, h, ih]

theorem alookup_aset_ne (k k' : String) (hne : k' ≠ k) (v : β) (l : List (String × β)) :
    alookup k (aset k' v l) = alookup k l := by
  induction l with
  | nil => simp [aset, alookup, hne]
  | cons p rest ih =>
      obtain ⟨k₀, v₀⟩ := p
      by_cases h : k₀ = k'
      · subst h
        simp [aset, alookup, hne]
      · by_cases h2 : k₀ = k
        · simp [aset, alookup, h, h2, Ne.symm hne]
        · simp [aset, alookup, h, h2, ih]

@[simp] theorem alookup_adel_self (k : String) (l : List (String × β)) :
    alookup k (adel k l) = none := by
  induction l with
  | nil => simp [adel, alookup]
  | cons p rest ih =>
      obtain ⟨k₀, v₀⟩ := p
      by_cases h : k₀ = k
      · simpa [adel, alookup, h] using ih
      · simpa [adel, alookup, h] using ih

/-! ## Short-term memory tier (`short_term_memory.py`, in-memory fallback)

State: the `memory_store` dict, mapping a key to the serialized data and an
optional absolute expiry instant.  `stmStore` embeds `ShortTermMemory.store`
(lines 67-90), `stmGet` embeds `ShortTermMemory.get` (lines 92-114): a get
on an expired key deletes the entry lazily and returns absent. -/

/-- One `memory_store` entry: `{"data": ..., "expires_at": ...}`. -/
structure STEntry (α : Type) where
  data : α
  expires_at : Option ℚ
  deriving DecidableEq, Repr

/-- Embeds `ShortTermMemory.store`: `expiry = now + timedelta(seconds=ttl) if ttl
else None` — note Python truthiness: both `ttl=None` and `ttl=0` store an
entry that never expires.  Always returns `True` on this path. -/
def stmStore (key : String) (data : α) (ttl : Option ℚ) (now : ℚ)
    (s : List (String × STEntry α)) : Bool × List (String × STEntry α) :=
  let expiry : Option ℚ :=
    match ttl with
    | some t => if t ≠ 0 then some (now + t) else none
    | none => none
  (true, aset key ⟨data, expiry⟩ s)

/-- Embeds `ShortTermMemory.get`: returns the data unless
`entry["expires_at"] and now > entry["expires_at"]`, in which case the
entry is deleted and `None` is returned. -/
def stmGet (key : String) (now : ℚ) (s : List (String × STEntry α)) :
    Option α × List (String × STEntry α) :=
  match alookup key s with
  | none => (none, s)
  | some e =>
      match e.expires_at with
      | some exp => if now > exp then (none, adel key s) else (some e.data, s)
      | none => (some e.data, s)

theorem stmGet_after_store_live (key : String) (data : α) (ttl now t : ℚ)
    (s : List (String × STEntry α)) (hlive : t ≤ now + ttl) (httl : ttl ≠ 0) :
    (stmGet key t (stmStore key data (some ttl) now s).2).1 = some data := by
  simp [stmStore, stmGet, httl, not_lt.mpr hlive]

theorem stmGet_after_store_expired (key : String) (data : α) (ttl now t : ℚ)
    (s : List (String × STEntry α)) (hexp : now + ttl < t) (httl : ttl ≠ 0) :
    (stmGet key t (stmStore key data (some ttl) now s).2).1 = none ∧
      alookup key (stmGet key t (stmStore key data (some ttl) now s).2).2 = none := by
  constructor
  · simp [stmStore, stmGet, httl, hexp]
  · simp [stmStore, stmGet, httl, hexp]

theorem stmGet_absent_of_alookup_none (key : String) (now : ℚ)
    (s : List (String × STEntry α)) (h : alookup key s = none) :
    stmGet key now s = (none, s) := by
  simp [stmGet, h]

/-! ## Episodic memory tier (`episodic_memory.py`, in-memory fallback)

An `Episode` models the episode dict through the fields the source reads
(`scenario`, `agent_type`, `outcome_score`, `context`, `action_sequence`,
`timestamp`, plus the `episode_id`/`stored_at` keys injected by the
coordinator); an `Option` field set to `none` models an absent key.
The opaque `context` values are modelled as strings (see header). -/

structure Episode where
  scenario : Option String
  agent_type : Option String
  outcome_score : Option ℚ
  context : List (String × String)
  action_sequence : List String
  timestamp : Option String
  episode_id : Option String
  stored_at : Option ℚ
  deriving DecidableEq, Repr

/-- Embeds `EpisodicMemory._episode_to_text` (lines 91-110): canonical text
projection — scenario part, then `key: value` per context item, then the
space-joined action sequence, all joined by `" | "`. -/
def episodeToText (e : Episode) : String :=
  let parts :=
    (match e.scenario with
     | some s => ["scenario: " ++ s]
     | none => [])
    ++ e.context.map (fun p => p.1 ++ ": " ++ p.2)
    ++ (if e.action_sequence ≠ [] then
          ["actions: " ++ String.intercalate " " e.action_sequence]
        else [])
  String.intercalate " | " parts

/-- Embeds `EpisodicMemory._create_embedding` (lines 77-89), fallback branch: the
pseudo-embedding `[(hash_int >> i) % 256 / 255.0 - 0.5 for i in range(384)]`
where `hash_int` is the MD5 digest of the text as an integer.  MD5 itself is
a fixed pure library function and is modelled by the abstract hash
parameter `md5 : String → ℕ`. -/
def createEmbedding (md5 : String → ℕ) (text : String) : List ℚ :=
  (List.range 384).map (fun i => ((md5 text >>> i) % 256 : ℕ) / (255 : ℚ) - 1/2)

/-- One `memory_store` entry of the episodic fallback:
`{"id": ..., "embedding": ..., "text": ..., "metadata": episode}`. -/
structure EpEntry where
  id : String
  embedding : List ℚ
  text : String
  metadata : Episode
  deriving DecidableEq, Repr

/-- Embeds `EpisodicMemory.store` (lines 112-149), fallback branch: append the
entry; no threshold check happens at this tier. -/
def epStore (md5 : String → ℕ) (episode_id : String) (episode : Episode)
    (store : List EpEntry) : Bool × List EpEntry :=
  let episode_text := episodeToText episode
  let embedding := createEmbedding md5 episode_text
  (true, store ++ [⟨episode_id, embedding, episode_text, episode⟩])

/-- Embeds `metadata.get(k)` restricted to the string-valued keys the filters can
meaningfully compare; a key that is not a modelled string field is treated
as absent, which makes the `k in metadata` guard skip the filter. -/
def metaGet (e : Episode) : String → Option String
  | "scenario" => e.scenario
  | "agent_type" => e.agent_type
  | "episode_id" => e.episode_id
  | "timestamp" => e.timestamp
  | _ => none

/-- A `search_similar` result: the stored metadata dict augmented with the
`similarity_score` field. -/
structure SearchResult where
  episode : Episode
  similarity : ℚ
  deriving DecidableEq, Repr

/-- Embeds `EpisodicMemory.search_similar` (lines 151-218), fallback branch:
score every stored entry against the query embedding, keep those passing
`all(metadata.get(k) == v for k, v in filters.items() if k in metadata)`,
sort by descending similarity (Python's stable sort), return the first
`limit`.  The cosine-similarity computation (a pure function of the two
embedding vectors) is abstracted into the parameter `sim`. -/
def searchSimilar (sim : List ℚ → List ℚ → ℚ) (md5 : String → ℕ)
    (query_text : String) (filters : List (String × String)) (limit : ℕ)
    (store : List EpEntry) : List SearchResult :=
  let query_embedding := createEmbedding md5 query_text
  let similarities := store.foldl
    (fun acc stored =>
      let similarity := sim query_embedding stored.embedding
      if filters.all (fun f =>
            match metaGet stored.metadata f.1 with
            | none => true
            | some w => w = f.2) then
        acc ++ [⟨stored.metadata, similarity⟩]
      else acc) []
  (similarities.insertionSort (fun a b => b.similarity ≤ a.similarity)).take limit

/-- The sort key of `get_recent_successes`: `x.get("timestamp", "")`. -/
def tsKeyStr (e : Episode) : String := e.timestamp.getD ""

/-- Embeds `EpisodicMemory.get_recent_successes` (lines 220-255), fallback branch:
filter `metadata.get("outcome_score", 0) >= 0.7` (a hardcoded 0.7, not the
coordinator's 0.8 success threshold), sort by timestamp descending, take
`limit`. -/
def getRecentSuccesses (limit : ℕ) (store : List EpEntry) : List Episode :=
  let successful := (store.filter
    (fun stored => (7 : ℚ)/10 ≤ stored.metadata.outcome_score.getD 0)).map EpEntry.metadata
  (successful.insertionSort (fun a b => tsKeyStr b ≤ tsKeyStr a)).take limit

/-! ## Semantic memory tier (`semantic_memory.py`, NetworkX fallback)

The fallback graph is a `networkx.DiGraph`: simple directed graph whose
edges are keyed by the `(source, target)` pair; re-adding an existing edge
overwrites its attributes in place, preserving adjacency order. -/

structure SEdge where
  src : String
  tgt : String
  typ : String
  weight : ℚ
  source : String
  created_at : ℚ
  deriving DecidableEq, Repr

structure SGraph where
  nodes : List String
  edges : List SEdge
  deriving DecidableEq, Repr

def SGraph.empty : SGraph := ⟨[], []⟩

/-- The knowledge-triple dict built by `MemoryManager.store_knowledge_triple`
(lines 242-261). -/
structure Triple where
  subject : String
  predicate : String
  object : String
  weight : ℚ
  source : String
  deriving DecidableEq, Repr

/-- Embeds `graph.add_node` guarded by `has_node`, as in `store_triple`. -/
def addNodeIfAbsent (g : SGraph) (n : String) : SGraph :=
  if n ∈ g.nodes then g else { g with nodes := g.nodes ++ [n] }

/-- Embeds `DiGraph.add_edge`: overwrite the attributes of the existing
`(src, tgt)` edge in place, else append a new edge. -/
def upsertEdge (e : SEdge) : List SEdge → List SEdge
  | [] => [e]
  | x :: xs => if x.src = e.src ∧ x.tgt = e.tgt then e :: xs else x :: upsertEdge e xs

/-- Embeds `SemanticMemory.store_triple` (lines 136-172), NetworkX branch. -/
def storeTriple (now : ℚ) (t : Triple) (g : SGraph) : Bool × SGraph :=
  let g1 := addNodeIfAbsent g t.subject
  let g2 := addNodeIfAbsent g1 t.object
  (true,
    { g2 with
        edges := upsertEdge ⟨t.subject, t.object, t.predicate, t.weight, t.source, now⟩ g2.edges })

structure TripleOut where
  subject : String
  predicate : String
  object : String
  weight : ℚ
  source : String
  deriving DecidableEq, Repr

/-- A field filter of `query_triples`: `if subject and source_node != subject:
continue` — note Python truthiness, an empty-string filter is no filter. -/
def matchesFilter (fil : Option String) (x : String) : Bool :=
  match fil with
  | some s => if s = "" then true else decide (x = s)
  | none => true

/-- Embeds `SemanticMemory.query_triples` (lines 174-242), NetworkX branch. -/
def queryTriples (g : SGraph) (subject predicate object : Option String) :
    List TripleOut :=
  (g.edges.filter (fun e =>
      matchesFilter subject e.src && matchesFilter object e.tgt &&
        matchesFilter predicate e.typ)).map
    (fun e => ⟨e.src, e.typ, e.tgt, e.weight, e.source⟩)

/-! ## Graph traversal (`SemanticMemory.get_related_concepts`, lines 244-322)

The NetworkX-branch BFS: a FIFO queue of `(node, depth, path)` items, a
visited set, and a growing result list.  The `while queue` loop is embedded
with an explicit fuel argument; `edges.length + 1` fuel always empties the
queue, because every queue item beyond the initial one stems from a
distinct (visited node, out-edge) pair, so at most `edges.length` items are
ever enqueued and every loop iteration pops exactly one item. -/

structure BfsItem where
  node : String
  depth : ℕ
  path : List String
  deriving DecidableEq, Repr

structure RelatedResult where
  concept : String
  path_types : List String
  distance : ℕ
  relationship : String
  deriving DecidableEq, Repr

/-- Embeds `graph.neighbors(current)`: successors in adjacency (insertion) order. -/
def neighborsOf (g : SGraph) (v : String) : List String :=
  (g.edges.filter (fun e => e.src = v)).map SEdge.tgt

/-- Embeds `graph.get_edge_data(u, v).get("type", "related_to")`. -/
def edgeTypeOf (g : SGraph) (u v : String) : String :=
  ((g.edges.find? (fun e => decide (e.src = u) && decide (e.tgt = v))).map SEdge.typ).getD
    "related_to"

/-- Embeds `if relationship_types and edge_type not in relationship_types: continue`
— an empty filter list is falsy, hence no filter. -/
def typeAllowed (relationship_types : Option (List String)) (edge_type : String) : Bool :=
  match relationship_types with
  | some ts => if ts = [] then true else decide (edge_type ∈ ts)
  | none => true

/-- The inner `for neighbor in self.graph.neighbors(current)` loop: returns
the items appended to the queue and the results appended to `related`.
`visited` already contains `current` at this point. -/
def bfsExpand (g : SGraph) (concept : String)
    (relationship_types : Option (List String)) (depth : ℕ)
    (current : String) (curr_depth : ℕ) (path : List String)
    (visited : List String) : List BfsItem × List RelatedResult :=
  (neighborsOf g current).foldl
    (fun acc neighbor =>
      if neighbor ∈ visited then acc
      else
        let edge_type := edgeTypeOf g current neighbor
        if typeAllowed relationship_types edge_type then
          let new_path := path ++ [edge_type]
          let acc1 :=
            if curr_depth + 1 < depth then
              (acc.1 ++ [⟨neighbor, curr_depth + 1, new_path⟩], acc.2)
            else acc
          if neighbor ≠ concept then
            (acc1.1, acc1.2 ++ [⟨neighbor, new_path, curr_depth + 1, edge_type⟩])
          else acc1
        else acc)
    ([], [])

/-- The `while queue` loop: pop the head; skip it if already visited or at
depth; otherwise visit it and expand its neighbors.  Also returns the final
queue so that fuel sufficiency is observable. -/
def bfsLoop (g : SGraph) (concept : String)
    (relationship_types : Option (List String)) (depth : ℕ) :
    ℕ → List BfsItem → List String → List RelatedResult →
      List RelatedResult × List BfsItem
  | 0, queue, _, related => (related, queue)
  | _ + 1, [], _, related => (related, [])
  | fuel + 1, item :: rest, visited, related =>
      if item.node ∈ visited ∨ depth ≤ item.depth then
        bfsLoop g concept relationship_types depth fuel rest visited related
      else
        let visited' := visited ++ [item.node]
        let expanded :=
          bfsExpand g concept relationship_types depth item.node item.depth item.path visited'
        bfsLoop g concept relationship_types depth fuel (rest ++ expanded.1) visited'
          (related ++ expanded.2)

/-- Embeds `SemanticMemory.get_related_concepts`, NetworkX branch:
`if concept not in self.graph: return []`, then BFS from `(concept, 0, [])`. -/
def getRelatedConcepts (g : SGraph) (concept : String)
    (relationship_types : Option (List String)) (depth : ℕ) : List RelatedResult :=
  if concept ∈ g.nodes then
    (bfsLoop g concept relationship_types depth (g.edges.length + 1)
      [⟨concept, 0, []⟩] [] []).1
  else []

/-! ## RFM scoring (`MemoryManager._calculate_rfm_score`, lines 423-454) -/

/-- Python's `round` (banker's rounding) on an exact rational. -/
def pyRound (q : ℚ) : ℤ :=
  let n := ⌊q⌋
  let f := q - n
  if f < 1/2 then n
  else if 1/2 < f then n + 1
  else if Even n then n else n + 1

/-- Python `round(x, 3)`. -/
def pyRound3 (q : ℚ) : ℚ := (pyRound (q * 1000) : ℚ) / 1000

/-- One element of `interaction_history` (the record built by
`_consolidate_to_long_term`); `timestamp = none` models an absent key, whose
sort key defaults to `""`, lexicographically below every ISO timestamp. -/
structure InteractionRecord where
  conversation_id : String
  interaction_count : ℕ
  context_summary : String
  timestamp : Option ℚ
  deriving DecidableEq, Repr

/-- The sort key `x.get("timestamp", "")` of `max(...)`: an absent
timestamp compares below every real one. -/
def tsKey (o : Option ℚ) : WithBot ℚ :=
  match o with
  | some q => (q : WithBot ℚ)
  | none => ⊥

/-- Python's `max(l, key=k)`: left fold keeping the first maximal element. -/
def pyMaxBy (key : α → WithBot ℚ) (a : α) (l : List α) : α :=
  l.foldl (fun acc x => if key acc < key x then x else acc) a

/-- Embeds `MemoryManager._calculate_rfm_score`: `0.0` on an empty history; else
recency decays linearly over 30 days from the most recent interaction
(`timedelta.days` floors), frequency saturates at 10 interactions, monetary
is the fixed placeholder `0.5`, and the mean of the three is rounded to
three decimals.  A record whose timestamp key wins as `""` falls back to
`datetime.now()`, i.e. zero days since. -/
def calcRfm (now : ℚ) (hist : List InteractionRecord) : ℚ :=
  match hist with
  | [] => 0
  | h :: t =>
      let last_interaction := pyMaxBy (fun r => tsKey r.timestamp) h t
      let last_timestamp := last_interaction.timestamp.getD now
      let days_since : ℤ := ⌊(now - last_timestamp) / 86400⌋
      let recency_score := max 0 (1 - (days_since : ℚ) / 30)
      let frequency_score := min 1 (((h :: t).length : ℚ) / 10)
      let monetary_score : ℚ := 1/2
      pyRound3 ((recency_score + frequency_score + monetary_score) / 3)

/-! ## The coordinator (`memory_manager.py`)

`MemState` bundles the four tier states; coordinator operations are state
transitions.  Operations that can write the long-term profile additionally
return the list of long-term profile writes they performed, so that
"exactly one long-term write" is directly expressible. -/

/-- The `memory_data` dict built by `MemoryManager.store_short_term`. -/
structure STRecord where
  conversation_id : String
  lead_id : String
  context : List (String × String)
  last_updated : ℚ
  interaction_count : ℕ
  deriving DecidableEq, Repr

/-- The `memory_data` dict built by `MemoryManager.store_long_term` and held
by the long-term fallback store. -/
structure LTRecord where
  lead_id : String
  preferences : List (String × String)
  interaction_history : List InteractionRecord
  last_updated : ℚ
  rfm_score : ℚ
  deriving DecidableEq, Repr

/-- The four tier states. -/
structure MemState where
  stm : List (String × STEntry STRecord)
  ltm : List (String × LTRecord)
  epi : List EpEntry
  sem : SGraph
  deriving DecidableEq, Repr

def MemState.empty : MemState := ⟨[], [], [], SGraph.empty⟩

/-- Embeds `MemoryManager._extract_preferences` (lines 456-479): copy the five
recognized context keys into a fresh preferences dict. -/
def extractPreferences (context : List (String × String)) : List (String × String) :=
  let p0 : List (String × String) := []
  let p1 := match alookup "preferred_channel" context with
    | some v => aset "communication_channel" v p0
    | none => p0
  let p2 := match alookup "contact_time" context with
    | some v => aset "contact_time" v p1
    | none => p1
  let p3 := match alookup "interests" context with
    | some v => aset "interests" v p2
    | none => p2
  let p4 := match alookup "communication_style" context with
    | some v => aset "communication_style" v p3
    | none => p3
  match alookup "product_interests" context with
    | some v => aset "product_interests" v p4
    | none => p4

/-- Embeds `MemoryManager._summarize_context` (lines 481-495). -/
def summarizeContext (context : List (String × String)) : String :=
  let summary_parts :=
    (match alookup "lead_source" context with
     | some v => ["Source: " ++ v]
     | none => [])
    ++ (match alookup "interaction_type" context with
        | some v => ["Type: " ++ v]
        | none => [])
    ++ (match alookup "outcome" context with
        | some v => ["Outcome: " ++ v]
        | none => [])
  if summary_parts = [] then "General interaction"
  else String.intercalate " | " summary_parts

/-- Embeds `MemoryManager._context_to_search_text` (lines 497-510), with opaque
values modelled as strings. -/
def contextToSearchText (context : List (String × String)) : String :=
  String.intercalate " " (context.map (fun p => p.1 ++ ": " ++ p.2))

/-- Embeds `MemoryManager.store_long_term` (lines 176-192): build the profile
record (recomputing `rfm_score`) and overwrite the per-lead entry of the
long-term fallback store (`LongTermMemory.store`, lines 115-143).  The
third component reports this long-term profile write. -/
def storeLongTerm (now : ℚ) (lead_id : String) (preferences : List (String × String))
    (interaction_history : List InteractionRecord) (st : MemState) :
    Bool × MemState × List LTRecord :=
  let memory_data : LTRecord :=
    { lead_id := lead_id
      preferences := preferences
      interaction_history := interaction_history
      last_updated := now
      rfm_score := calcRfm now interaction_history }
  (true, { st with ltm := aset lead_id memory_data st.ltm }, [memory_data])

/-- Embeds `MemoryManager.get_long_term` / `LongTermMemory.get`, fallback branch. -/
def getLongTerm (lead_id : String) (st : MemState) : Option LTRecord :=
  alookup lead_id st.ltm

/-- Embeds `MemoryManager._consolidate_to_long_term` (lines 323-367): bail out on a
falsy `lead_id`; otherwise extract preferences from the short-term context,
build the summarized interaction record, and merge into the existing
profile (or create a fresh one). -/
def consolidateToLongTerm (now : ℚ) (conversation_id : String)
    (short_term_data : STRecord) (st : MemState) : Bool × MemState × List LTRecord :=
  if short_term_data.lead_id = "" then (false, st, [])
  else
    let existing_long_term := getLongTerm short_term_data.lead_id st
    let preferences := extractPreferences short_term_data.context
    let interaction_record : InteractionRecord :=
      { conversation_id := conversation_id
        interaction_count := short_term_data.interaction_count
        context_summary := summarizeContext short_term_data.context
        timestamp := some short_term_data.last_updated }
    match existing_long_term with
    | some lt =>
        let r := storeLongTerm now short_term_data.lead_id
          (dictUpdate lt.preferences preferences)
          (lt.interaction_history ++ [interaction_record]) st
        (true, r.2.1, r.2.2)
    | none =>
        let r := storeLongTerm now short_term_data.lead_id
          preferences [interaction_record] st
        (true, r.2.1, r.2.2)

/-- Embeds `MemoryManager.store_short_term` (lines 119-151): build `memory_data`
with `interaction_count = 1`, bump it from the existing entry if one is
alive (the read may lazily delete an expired entry), store with
`ttl or 3600` (Python truthiness: `None` and `0` both become 3600), then
consolidate if the count reached the threshold 5. -/
def storeShortTerm (now : ℚ) (conversation_id lead_id : String)
    (context : List (String × String)) (ttl : Option ℚ) (st : MemState) :
    Bool × MemState × List LTRecord :=
  let memory_data : STRecord :=
    { conversation_id := conversation_id
      lead_id := lead_id
      context := context
      last_updated := now
      interaction_count := 1 }
  let got := stmGet conversation_id now st.stm
  let memory_data :=
    match got.1 with
    | some existing => { memory_data with interaction_count := existing.interaction_count + 1 }
    | none => memory_data
  let ttlArg : ℚ := match ttl with
    | some t => if t ≠ 0 then t else 3600
    | none => 3600
  let stored := stmStore conversation_id memory_data (some ttlArg) now got.2
  let st1 : MemState := { st with stm := stored.2 }
  if 5 ≤ memory_data.interaction_count then
    let r := consolidateToLongTerm now conversation_id memory_data st1
    (stored.1, r.2.1, r.2.2)
  else (stored.1, st1, [])

/-- Embeds `MemoryManager.get_short_term` (lines 153-155). -/
def getShortTerm (now : ℚ) (conversation_id : String) (st : MemState) :
    Option STRecord × MemState :=
  let got := stmGet conversation_id now st.stm
  (got.1, { st with stm := got.2 })

/-- Embeds `MemoryManager.update_short_term` (lines 157-173): `False` if the read
finds nothing alive; otherwise merge the updates, bump the count, and store
back — with no `ttl` argument, so the re-stored entry never expires. -/
def updateShortTerm (now : ℚ) (conversation_id : String)
    (context_updates : List (String × String)) (st : MemState) : Bool × MemState :=
  let got := stmGet conversation_id now st.stm
  match got.1 with
  | none => (false, { st with stm := got.2 })
  | some existing =>
      let updated : STRecord :=
        { existing with
            context := dictUpdate existing.context context_updates
            last_updated := now
            interaction_count := existing.interaction_count + 1 }
      let stored := stmStore conversation_id updated none now got.2
      (stored.1, { st with stm := stored.2 })

/-- Embeds `MemoryManager.store_episodic_memory` (lines 206-218): reject below the
0.8 success threshold before any write; otherwise inject the generated
`episode_id` (the `uuid4` value is modelled as the parameter) and
`stored_at`, and append to the episodic tier. -/
def storeEpisodicMemory (md5 : String → ℕ) (episode_id : String) (now : ℚ)
    (episode : Episode) (st : MemState) : Bool × MemState :=
  let outcome_score := episode.outcome_score.getD 0
  if outcome_score < 4/5 then (false, st)
  else
    let episode := { episode with episode_id := some episode_id, stored_at := some now }
    let stored := epStore md5 episode_id episode st.epi
    (stored.1, { st with epi := stored.2 })

/-- Embeds `MemoryManager.search_episodic_memory` (lines 220-239): build the query
text from the context, add an `agent_type` filter when one is given (empty
string is falsy: no filter), and delegate to the tier search. -/
def searchEpisodicMemory (sim : List ℚ → List ℚ → ℚ) (md5 : String → ℕ)
    (query_context : List (String × String)) (agent_type : Option String)
    (limit : ℕ) (st : MemState) : List SearchResult :=
  let query_text := contextToSearchText query_context
  let filters : List (String × String) :=
    match agent_type with
    | some a => if a = "" then [] else [("agent_type", a)]
    | none => []
  searchSimilar sim md5 query_text filters limit st.epi

/-! ## Spec-side definitions and fixtures used by the claim statements -/

/-- Spec §4.5: `recency = max(0, 1 - days_since_last_interaction/30)`, where
the last interaction is the one with the maximal timestamp (an absent
timestamp sorts below all others and falls back to `now`). -/
def recencyScore (now : ℚ) (hist : List InteractionRecord) : ℚ :=
  let lastTs := ((hist.map (fun r => tsKey r.timestamp)).foldl max ⊥).unbot' now
  max 0 (1 - ((⌊(now - lastTs) / 86400⌋ : ℤ) : ℚ) / 30)

/-- Spec §4.5: `frequency = min(1, interaction_count/10)`. -/
def frequencyScore (hist : List InteractionRecord) : ℚ :=
  min 1 ((hist.length : ℚ) / 10)

/-- The RFM formula as the spec words it:
`rfm = round((recency+frequency+monetary)/3, 3)` with `monetary = 0.5`,
and `0.0` for an empty history. -/
def specRfm (now : ℚ) (hist : List InteractionRecord) : ℚ :=
  if hist = [] then 0
  else pyRound3 ((recencyScore now hist + frequencyScore hist + 1/2) / 3)

/-- Five consecutive `store_short_term` calls for the same conversation,
lead, and context, issued at the same instant with `ttl` unspecified;
returns the final state and the concatenated long-term profile writes. -/
def runFive (now : ℚ) (cid lid : String) (ctx : List (String × String))
    (st0 : MemState) : MemState × List LTRecord :=
  let r1 := storeShortTerm now cid lid ctx none st0
  let r2 := storeShortTerm now cid lid ctx none r1.2.1
  let r3 := storeShortTerm now cid lid ctx none r2.2.1
  let r4 := storeShortTerm now cid lid ctx none r3.2.1
  let r5 := storeShortTerm now cid lid ctx none r4.2.1
  (r5.2.1, r1.2.2 ++ r2.2.2 ++ r3.2.2 ++ r4.2.2 ++ r5.2.2)

/-- The long-term profile record a consolidation at count 5 writes: the
preferences extracted from the context merged into the existing profile (if
any), and the summarized interaction record appended to its history. -/
def consolidatedWrite (now : ℚ) (cid lid : String) (ctx : List (String × String))
    (ltm : List (String × LTRecord)) : LTRecord :=
  let preferences :=
    match alookup lid ltm with
    | some lt => dictUpdate lt.preferences (extractPreferences ctx)
    | none => extractPreferences ctx
  let history :=
    (match alookup lid ltm with
      | some lt => lt.interaction_history
      | none => []) ++ [⟨cid, 5, summarizeContext ctx, some now⟩]
  ⟨lid, preferences, history, now, calcRfm now history⟩

/-- A `DiGraph` whose edges are uniquely keyed by `(source, target)` — the
representation invariant NetworkX maintains and `upsertEdge` preserves. -/
def EdgeKeysUnique (g : SGraph) : Prop :=
  g.edges.Pairwise (fun a b => a.src ≠ b.src ∨ a.tgt ≠ b.tgt)

/-- The graph seeded with exactly `A -[rel]-> B` and `B -[rel]-> C`. -/
def semGraphABC : SGraph :=
  (storeTriple 0 ⟨"B", "rel", "C", 1, "system"⟩
    (storeTriple 0 ⟨"A", "rel", "B", 1, "system"⟩ SGraph.empty).2).2

/-- An episode with `outcome_score = 0.5`, below the 0.8 threshold. -/
def epLow : Episode := ⟨none, none, some (1/2), [], [], none, none, none⟩

/-- An episode with `outcome_score = 0.75`: at or above the hardcoded 0.7
filter of `get_recent_successes` yet below the 0.8 success threshold. -/
def ep075 : Episode :=
  ⟨some "s", some "agent", some (3/4), [], [], some "2024-01-01T00:00:00", none, none⟩

/-- An episodic store holding exactly `ep075`. -/
def store075 : List EpEntry := (epStore (fun _ => 0) "e1" ep075 []).2

/-- A state whose only short-term entry expired at instant 10. -/
def stExp : MemState :=
  { MemState.empty with stm := [("c", ⟨⟨"c", "l", [], 0, 1⟩, some 10⟩)] }

/-- Descending-timestamp order (the `reverse=True` sort of
`get_recent_successes`) is total. -/
instance : IsTotal Episode (fun a b => tsKeyStr b ≤ tsKeyStr a) :=
  ⟨fun a b => le_total (tsKeyStr b) (tsKeyStr a)⟩

/-- Descending-timestamp order is transitive. -/
instance : IsTrans Episode (fun a b => tsKeyStr b ≤ tsKeyStr a) :=
  ⟨fun _ _ _ hab hbc => le_trans hbc hab⟩

/-- Descending-similarity order (the sort of `search_similar`) is total. -/
instance : IsTotal SearchResult (fun a b => b.similarity ≤ a.similarity) :=
  ⟨fun a b => le_total b.similarity a.similarity⟩

/-- Descending-similarity order is transitive. -/
instance : IsTrans SearchResult (fun a b => b.similarity ≤ a.similarity) :=
  ⟨fun _ _ _ hab hbc => le_trans hbc hab⟩

/-! ## Shared helper lemmas -/

theorem stmGet_aset_live (key : String) (d : α) (exp t : ℚ)
    (s : List (String × STEntry α)) (h : t ≤ exp) :
    (stmGet key t (aset key ⟨d, some exp⟩ s)).1 = some d := by
  simp [stmGet, not_lt.mpr h]

theorem stmGet_aset_expired (key : String) (d : α) (exp t : ℚ)
    (s : List (String × STEntry α)) (h : exp < t) :
    (stmGet key t (aset key ⟨d, some exp⟩ s)).1 = none := by
  simp [stmGet, h]

theorem consolidate_stm (now : ℚ) (cid : String) (d : STRecord) (st : MemState) :
    (consolidateToLongTerm now cid d st).2.1.stm = st.stm := by
  unfold consolidateToLongTerm storeLongTerm
  by_cases h : d.lead_id = ""
  · simp [h]
  · simp only [h, if_false]
    cases getLongTerm d.lead_id st <;> simp

theorem consolidate_epi (now : ℚ) (cid : String) (d : STRecord) (st : MemState) :
    (consolidateToLongTerm now cid d st).2.1.epi = st.epi := by
  unfold consolidateToLongTerm storeLongTerm
  by_cases h : d.lead_id = ""
  · simp [h]
  · simp only [h, if_false]
    cases getLongTerm d.lead_id st <;> simp

theorem consolidate_sem (now : ℚ) (cid : String) (d : STRecord) (st : MemState) :
    (consolidateToLongTerm now cid d st).2.1.sem = st.sem := by
  unfold consolidateToLongTerm storeLongTerm
  by_cases h : d.lead_id = ""
  · simp [h]
  · simp only [h, if_false]
    cases getLongTerm d.lead_id st <;> simp

theorem mem_foldl_of_step (f : List γ → β → List γ) (P : γ → β → Prop)
    (hf : ∀ acc x r, r ∈ f acc x → r ∈ acc ∨ P r x) :
    ∀ (l : List β) (acc : List γ) (r : γ), r ∈ l.foldl f acc → r ∈ acc ∨ ∃ x ∈ l, P r x := by
  intro l
  induction l with
  | nil => intro acc r hr; exact Or.inl hr
  | cons x xs ih =>
      intro acc r hr
      rcases ih (f acc x) r hr with h | ⟨y, hy, hP⟩
      · rcases hf acc x r h with h' | hP
        · exact Or.inl h'
        · exact Or.inr ⟨x, List.mem_cons_self x xs, hP⟩
      · exact Or.inr ⟨y, List.mem_cons_of_mem x hy, hP⟩

/-! ## C2: TTL semantics of the short-term tier -/

/-- C2: For every key, data and `ttl > 0`, from any prior store state:
a `get` at any instant up to `now + ttl` returns the stored data (the
round-trip through JSON serialization is the identity on the value); a
`get` strictly after `now + ttl` — the source's expiry test is the strict
`now > expires_at`, so "ttl has elapsed" means strictly past the expiry
instant — returns absent and deletes the entry, after which a `get` at any
later instant is still absent (idempotent expiry): a short-term read never
returns expired data. -/
theorem shortTerm_ttl_roundtrip_and_expiry (key : String) (data : α) (ttl now t : ℚ)
    (s : List (String × STEntry α)) (httl : 0 < ttl) :
    (t ≤ now + ttl →
      (stmGet key t (stmStore key data (some ttl) now s).2).1 = some data) ∧
    (now + ttl < t →
      (stmGet key t (stmStore key data (some ttl) now s).2).1 = none ∧
      ∀ t' : ℚ,
        (stmGet key t' (stmGet key t (stmStore key data (some ttl) now s).2).2).1 = none) := by
  constructor
  · intro hlive
    exact stmGet_after_store_live key data ttl now t s hlive (ne_of_gt httl)
  · intro hexp
    refine ⟨(stmGet_after_store_expired key data ttl now t s hexp (ne_of_gt httl)).1, ?_⟩
    intro t'
    have hnone := (stmGet_after_store_expired key data ttl now t s hexp (ne_of_gt httl)).2
    rw [stmGet_absent_of_alookup_none _ _ _ hnone]

theorem shortTerm_ttl_roundtrip_and_expiry_witness :
    (stmGet "k" 5 (stmStore "k" (42 : ℕ) (some 10) 0 []).2).1 = some 42 ∧
    (stmGet "k" 20 (stmStore "k" (42 : ℕ) (some 10) 0 []).2).1 = none ∧
    (stmGet "k" 30 (stmGet "k" 20 (stmStore "k" (42 : ℕ) (some 10) 0 []).2).2).1 = none :=
  ⟨(shortTerm_ttl_roundtrip_and_expiry "k" 42 10 0 5 [] (by norm_num)).1 (by norm_num),
   ((shortTerm_ttl_roundtrip_and_expiry "k" 42 10 0 20 [] (by norm_num)).2 (by norm_num)).1,
   ((shortTerm_ttl_roundtrip_and_expiry "k" 42 10 0 20 [] (by norm_num)).2 (by norm_num)).2 30⟩

/-! ## C8: the 3600s default ttl -/

/-- C8, counterexample: `ShortTermMemory.store` called with the `ttl`
argument unspecified does *not* behave as if `ttl` were 3600: the entry is
stored with no expiry at all, so a `get` 5000 seconds later still returns
the data instead of absent. -/
theorem storeDefault_counterexample :
    (stmGet "k" 5000 (stmStore "k" (42 : ℕ) none 0 []).2).1 ≠ none := by
  simp [stmStore, stmGet, aset, alookup]

/-- C8, amended: The 3600s default is applied one layer up, by
`MemoryManager.store_short_term` (`ttl or 3600`): for every call with `ttl`
unspecified, the written short-term entry is retrievable at any instant up
to `now + 3600` and absent at any instant strictly past it.  At the tier
level, `ShortTermMemory.store` with `ttl` unspecified stores an entry with
no expiry (see the counterexample). -/
theorem storeShortTerm_default_ttl (now : ℚ) (cid lid : String)
    (ctx : List (String × String)) (st : MemState) (t : ℚ) :
    (t ≤ now + 3600 →
      ∃ d, (stmGet cid t (storeShortTerm now cid lid ctx none st).2.1.stm).1 = some d) ∧
    (now + 3600 < t →
      (stmGet cid t (storeShortTerm now cid lid ctx none st).2.1.stm).1 = none) := by
  have hstm : (storeShortTerm now cid lid ctx none st).2.1.stm =
      aset cid
        ⟨{ conversation_id := cid, lead_id := lid, context := ctx, last_updated := now
           interaction_count :=
             match (stmGet cid now st.stm).1 with
             | some existing => existing.interaction_count + 1
             | none => 1 },
          some (now + 3600)⟩ (stmGet cid now st.stm).2 := by
    unfold storeShortTerm
    cases hg : (stmGet cid now st.stm).1 with
    | none =>
        simp only [hg, stmStore]
        split
        · rw [consolidate_stm]
          norm_num
        · norm_num
    | some existing =>
        simp only [hg, stmStore]
        split
        · rw [consolidate_stm]
          norm_num
        · norm_num
  constructor
  · intro hlive
    exact ⟨_, by rw [hstm]; exact stmGet_aset_live cid _ _ t _ hlive⟩
  · intro hexp
    rw [hstm]
    exact stmGet_aset_expired cid _ _ t _ hexp

theorem storeShortTerm_default_ttl_witness :
    (∃ d, (stmGet "c" 1000
      (storeShortTerm 0 "c" "l" [] none MemState.empty).2.1.stm).1 = some d) ∧
    (stmGet "c" 4000
      (storeShortTerm 0 "c" "l" [] none MemState.empty).2.1.stm).1 = none :=
  ⟨(storeShortTerm_default_ttl 0 "c" "l" [] MemState.empty 1000).1 (by norm_num),
   (storeShortTerm_default_ttl 0 "c" "l" [] MemState.empty 4000).2 (by norm_num)⟩

/-! ## C10: `update_short_term` on a missing or expired entry -/

/-- C10, counterexample: With a stored-but-expired entry (so no
*active* entry) under the conversation id, `update_short_term` returns
`False` but does not leave every tier unchanged: the failed read lazily
deletes the expired short-term entry, so the short-term map differs. -/
theorem updateShortTerm_counterexample :
    (stmGet "c" 20 stExp.stm).1 = none ∧
    (updateShortTerm 20 "c" [] stExp).1 = false ∧
    (updateShortTerm 20 "c" [] stExp).2 ≠ stExp := by
  refine ⟨by decide, by decide, ?_⟩
  decide

/-- C10, amended: When the read finds no live entry,
`update_short_term` returns `False` and performs no write: the long-term,
episodic and semantic tiers are untouched, and the short-term map changes
at most by the lazy deletion of an expired entry that the failed read
performs; when no entry is stored at all, the whole state is unchanged. -/
theorem updateShortTerm_no_active_entry (now : ℚ) (cid : String)
    (upd : List (String × String)) (st : MemState)
    (h : (stmGet cid now st.stm).1 = none) :
    updateShortTerm now cid upd st = (false, { st with stm := (stmGet cid now st.stm).2 }) ∧
    (updateShortTerm now cid upd st).2.ltm = st.ltm ∧
    (updateShortTerm now cid upd st).2.epi = st.epi ∧
    (updateShortTerm now cid upd st).2.sem = st.sem ∧
    (alookup cid st.stm = none → updateShortTerm now cid upd st = (false, st)) := by
  have hmain : updateShortTerm now cid upd st =
      (false, { st with stm := (stmGet cid now st.stm).2 }) := by
    simp only [updateShortTerm, h]
  refine ⟨hmain, by rw [hmain], by rw [hmain], by rw [hmain], ?_⟩
  intro habsent
  rw [hmain, stmGet_absent_of_alookup_none _ _ _ habsent]

theorem updateShortTerm_no_active_entry_witness :
    updateShortTerm 20 "c" [] stExp = (false, { stExp with stm := [] }) :=
  (updateShortTerm_no_active_entry 20 "c" [] stExp (by decide)).1

/-! ## C5: determinism of the pseudo-embedding -/

/-- C5: With no embedding model configured, the pseudo-embedding is a
pure function of the input text alone: embedding equal texts gives equal
vectors, and storing the same episode twice — under different generated
ids, into different store states, i.e. across any two repeated calls —
records the identical embedding vector, namely the pseudo-embedding of the
episode's canonical text. -/
theorem pseudoEmbedding_deterministic (md5 : String → ℕ) (t1 t2 : String)
    (e : Episode) (id1 id2 : String) (s1 s2 : List EpEntry) :
    (t1 = t2 → createEmbedding md5 t1 = createEmbedding md5 t2) ∧
    ∃ v : List ℚ,
      v = createEmbedding md5 (episodeToText e) ∧
      (epStore md5 id1 e s1).2.getLast? = some ⟨id1, v, episodeToText e, e⟩ ∧
      (epStore md5 id2 e s2).2.getLast? = some ⟨id2, v, episodeToText e, e⟩ := by
  refine ⟨fun h => by rw [h], createEmbedding md5 (episodeToText e), rfl, ?_, ?_⟩
  · simp [epStore]
  · simp [epStore]

theorem pseudoEmbedding_deterministic_witness :
    createEmbedding (fun _ => 0) "text" = createEmbedding (fun _ => 0) "text" :=
  (pseudoEmbedding_deterministic (fun _ => 0) "text" "text" epLow "a" "b" [] []).1 rfl

/-! ## C7: breadth-first traversal of the seeded semantic graph -/

/-- C7: On the graph seeded with exactly `A -[rel]-> B` and
`B -[rel]-> C`, `get_related_concepts("A", depth=2)` returns `B` at hop
distance 1 and `C` at hop distance 2, each carrying the sequence of
relation types traversed; the starting concept `A` is never among the
results; and a `relationship_types` filter matching no edge type returns
neither.  (The BFS fuel `edges.length + 1` is exact here: the loop ends
with an empty queue.) -/
theorem relatedConcepts_seeded_graph :
    getRelatedConcepts semGraphABC "A" none 2 =
      [⟨"B", ["rel"], 1, "rel"⟩, ⟨"C", ["rel", "rel"], 2, "rel"⟩] ∧
    (∀ r ∈ getRelatedConcepts semGraphABC "A" none 2, r.concept ≠ "A") ∧
    getRelatedConcepts semGraphABC "A" (some ["other"]) 2 = [] ∧
    (bfsLoop semGraphABC "A" none 2 (semGraphABC.edges.length + 1)
      [⟨"A", 0, []⟩] [] []).2 = [] := by
  refine ⟨by decide, ?_, by decide, by decide⟩
  decide

/-! ## C6: upsert semantics of `store_triple` -/

theorem mem_upsertEdge (e y : SEdge) :
    ∀ l : List SEdge, y ∈ upsertEdge e l → y ∈ l ∨ y = e := by
  intro l
  induction l with
  | nil =>
      intro h
      simp only [upsertEdge, List.mem_singleton] at h
      exact Or.inr h
  | cons x xs ih =>
      intro h
      simp only [upsertEdge] at h
      split at h
      · rcases List.mem_cons.mp h with h' | h'
        · exact Or.inr h'
        · exact Or.inl (List.mem_cons_of_mem x h')
      · rcases List.mem_cons.mp h with h' | h'
        · exact Or.inl (h' ▸ List.mem_cons_self x xs)
        · rcases ih h' with h'' | h''
          · exact Or.inl (List.mem_cons_of_mem x h'')
          · exact Or.inr h''

theorem upsertEdge_pairwise (e : SEdge) :
    ∀ l : List SEdge, l.Pairwise (fun a b => a.src ≠ b.src ∨ a.tgt ≠ b.tgt) →
      (upsertEdge e l).Pairwise (fun a b => a.src ≠ b.src ∨ a.tgt ≠ b.tgt) := by
  intro l
  induction l with
  | nil => intro _; simp [upsertEdge]
  | cons x xs ih =>
      intro h
      rcases List.pairwise_cons.mp h with ⟨hx, hxs⟩
      simp only [upsertEdge]
      split
      · rename_i hkey
        refine List.pairwise_cons.mpr ⟨fun y hy => ?_, hxs⟩
        rcases hx y hy with h' | h'
        · exact Or.inl (hkey.1 ▸ h')
        · exact Or.inr (hkey.2 ▸ h')
      · rename_i hkey
        refine List.pairwise_cons.mpr ⟨fun y hy => ?_, ih hxs⟩
        rcases mem_upsertEdge e y xs hy with h' | h'
        · exact hx y h'
        · rcases not_and_or.mp hkey with h'' | h'' <;> rw [h']
          · exact Or.inl h''
          · exact Or.inr h''

theorem filter_upsertEdge (e : SEdge) :
    ∀ l : List SEdge, l.Pairwise (fun a b => a.src ≠ b.src ∨ a.tgt ≠ b.tgt) →
      (upsertEdge e l).filter (fun x => decide (x.src = e.src ∧ x.tgt = e.tgt)) = [e] := by
  intro l
  induction l with
  | nil => intro _; simp [upsertEdge]
  | cons x xs ih =>
      intro h
      rcases List.pairwise_cons.mp h with ⟨hx, hxs⟩
      simp only [upsertEdge]
      split
      · rename_i hkey
        have hfe : (decide (e.src = e.src ∧ e.tgt = e.tgt)) = true := by simp
        have htail : xs.filter (fun x => decide (x.src = e.src ∧ x.tgt = e.tgt)) = [] := by
          simp only [List.filter_eq_nil_iff, decide_eq_true_eq, not_and]
          intro a ha hsrc htgt
          rcases hx a ha with h' | h'
          · exact h' (hkey.1.trans hsrc.symm)
          · exact h' (hkey.2.trans htgt.symm)
        rw [List.filter_cons, hfe, if_pos rfl, htail]
      · rename_i hkey
        have hxfalse : (decide (x.src = e.src ∧ x.tgt = e.tgt)) = false := by
          simpa using hkey
        simp only [List.filter_cons, hxfalse, Bool.false_eq_true, if_false]
        exact ih hxs

@[simp] theorem addNodeIfAbsent_edges (g : SGraph) (n : String) :
    (addNodeIfAbsent g n).edges = g.edges := by
  unfold addNodeIfAbsent
  split <;> rfl

theorem storeTriple_edges (now : ℚ) (t : Triple) (g : SGraph) :
    (storeTriple now t g).2.edges =
      upsertEdge ⟨t.subject, t.object, t.predicate, t.weight, t.source, now⟩ g.edges := by
  simp [storeTriple]

/-- C6: In any graph satisfying the `DiGraph` representation invariant,
storing `(A, rel, B, weight=w1)` and then `(A, rel, B, weight=w2)` leaves
exactly one edge from `A` to `B` — the one carrying `weight = w2`,
predicate `rel` and the second write's source — and preserves the
invariant: a repeated triple overwrites weight and source rather than
duplicating the edge. -/
theorem tripleUpsert_natural_key (g : SGraph) (hwf : EdgeKeysUnique g)
    (A rel B : String) (w1 w2 : ℚ) (s1 s2 : String) (t1 t2 : ℚ) :
    ((storeTriple t2 ⟨A, rel, B, w2, s2⟩
        (storeTriple t1 ⟨A, rel, B, w1, s1⟩ g).2).2).edges.filter
      (fun e => decide (e.src = A ∧ e.tgt = B)) = [⟨A, B, rel, w2, s2, t2⟩] ∧
    EdgeKeysUnique (storeTriple t2 ⟨A, rel, B, w2, s2⟩
        (storeTriple t1 ⟨A, rel, B, w1, s1⟩ g).2).2 := by
  have h1 : EdgeKeysUnique (storeTriple t1 ⟨A, rel, B, w1, s1⟩ g).2 := by
    unfold EdgeKeysUnique
    rw [storeTriple_edges]
    exact upsertEdge_pairwise _ _ hwf
  constructor
  · rw [storeTriple_edges]
    exact filter_upsertEdge ⟨A, B, rel, w2, s2, t2⟩ _ h1
  · unfold EdgeKeysUnique
    rw [storeTriple_edges]
    exact upsertEdge_pairwise _ _ h1

theorem tripleUpsert_natural_key_witness :
    ((storeTriple 1 ⟨"A", "rel", "B", 9/10, "sys"⟩
        (storeTriple 0 ⟨"A", "rel", "B", 1/2, "sys"⟩ SGraph.empty).2).2).edges.filter
      (fun e => decide (e.src = "A" ∧ e.tgt = "B")) = [⟨"A", "B", "rel", 9/10, "sys", 1⟩] :=
  (tripleUpsert_natural_key SGraph.empty List.Pairwise.nil
    "A" "rel" "B" (1/2) (9/10) "sys" "sys" 0 1).1

/-! ## C3: episodic success-threshold enforcement -/

theorem mem_searchSimilar_metadata (sim : List ℚ → List ℚ → ℚ) (md5 : String → ℕ)
    (query_text : String) (filters : List (String × String)) (limit : ℕ)
    (store : List EpEntry) (r : SearchResult)
    (hr : r ∈ searchSimilar sim md5 query_text filters limit store) :
    r.episode ∈ store.map EpEntry.metadata := by
  unfold searchSimilar at hr
  have hr2 := List.mem_of_mem_take hr
  rw [List.mem_insertionSort] at hr2
  have := mem_foldl_of_step _ (fun (r : SearchResult) (x : EpEntry) => r.episode = x.metadata)
    (fun acc x r' hmem => by
      dsimp only at hmem
      split at hmem
      · rcases List.mem_append.mp hmem with h | h
        · exact Or.inl h
        · exact Or.inr (by simpa using congrArg SearchResult.episode (List.mem_singleton.mp h))
      · exact Or.inl hmem)
    store [] r hr2
  rcases this with h | ⟨x, hx, hP⟩
  · cases h
  · exact hP ▸ List.mem_map_of_mem EpEntry.metadata hx

/-- C3: An episode whose `outcome_score` is below the 0.8 success
threshold is rejected at the coordinator boundary: `store_episodic_memory`
returns `False` and leaves the state — in particular the episodic store —
unchanged, and since every result of any subsequent
`search_episodic_memory` call is (a similarity-scored copy of) an episode
already present in the episodic store, the rejected episode is never
retrievable. -/
theorem episodicThreshold_rejects (md5 : String → ℕ) (sim : List ℚ → List ℚ → ℚ)
    (episode_id : String) (now : ℚ) (episode : Episode) (st : MemState)
    (h : episode.outcome_score.getD 0 < 4/5) :
    storeEpisodicMemory md5 episode_id now episode st = (false, st) ∧
    ∀ (query_context : List (String × String)) (agent_type : Option String)
      (limit : ℕ) (r : SearchResult),
      r ∈ searchEpisodicMemory sim md5 query_context agent_type limit st →
      r.episode ∈ st.epi.map EpEntry.metadata := by
  constructor
  · unfold storeEpisodicMemory
    rw [if_pos h]
  · intro query_context agent_type limit r hr
    exact mem_searchSimilar_metadata sim md5 _ _ limit st.epi r hr

theorem episodicThreshold_rejects_witness :
    storeEpisodicMemory (fun _ => 0) "id1" 0 epLow MemState.empty =
      (false, MemState.empty) :=
  (episodicThreshold_rejects (fun _ => 0) (fun _ _ => 0) "id1" 0 epLow MemState.empty
    (by norm_num [epLow])).1

/-! ## C9: `get_recent_successes` filters at 0.7, not the 0.8 threshold -/

/-- C9, counterexample: An episode stored with `outcome_score = 0.75` —
below the 0.8 success threshold — is returned by `get_recent_successes`,
because the tier filters at a hardcoded 0.7. -/
theorem recentSuccesses_counterexample :
    getRecentSuccesses 10 store075 = [ep075] ∧
    ep075.outcome_score.getD 0 < 4/5 := by
  constructor
  · norm_num [getRecentSuccesses, store075, epStore, ep075, List.filter,
      List.insertionSort, List.orderedInsert]
  · norm_num [ep075]

/-- C9, amended: `get_recent_successes(limit)` returns exactly the
stored episodes whose `outcome_score` is at least the hardcoded 0.7 filter
(not the 0.8 success threshold — episodes in `[0.7, 0.8)` also appear),
ordered most recent first by timestamp and truncated to at most `limit`
entries: every result passes the 0.7 filter and comes from the store, the
result length is `min limit (number of qualifying episodes)`, the result is
sorted by descending timestamp, and whenever the qualifying episodes fit
within `limit`, every one of them appears. -/
theorem recentSuccesses_spec (limit : ℕ) (store : List EpEntry) :
    (∀ e ∈ getRecentSuccesses limit store,
        (7:ℚ)/10 ≤ e.outcome_score.getD 0 ∧ e ∈ store.map EpEntry.metadata) ∧
    (getRecentSuccesses limit store).length =
      min limit ((store.filter
        (fun stored => (7 : ℚ)/10 ≤ stored.metadata.outcome_score.getD 0)).length) ∧
    List.Sorted (fun a b => tsKeyStr b ≤ tsKeyStr a) (getRecentSuccesses limit store) ∧
    (∀ s ∈ store, (7:ℚ)/10 ≤ s.metadata.outcome_score.getD 0 →
      (store.filter
        (fun stored => (7 : ℚ)/10 ≤ stored.metadata.outcome_score.getD 0)).length ≤ limit →
      s.metadata ∈ getRecentSuccesses limit store) := by
  refine ⟨?_, ?_, ?_, ?_⟩
  · intro e he
    unfold getRecentSuccesses at he
    have he2 := List.mem_of_mem_take he
    rw [List.mem_insertionSort] at he2
    rcases List.mem_map.mp he2 with ⟨s, hs, hmeta⟩
    rcases List.mem_filter.mp hs with ⟨hmem, hp⟩
    subst hmeta
    exact ⟨by simpa using hp, List.mem_map_of_mem EpEntry.metadata hmem⟩
  · unfold getRecentSuccesses
    rw [List.length_take, List.length_insertionSort, List.length_map]
  · unfold getRecentSuccesses
    exact List.Pairwise.sublist (List.take_sublist _ _) (List.sorted_insertionSort _ _)
  · intro s hs hscore hlen
    unfold getRecentSuccesses
    have hmemS : s.metadata ∈ (store.filter
        (fun stored => (7 : ℚ)/10 ≤ stored.metadata.outcome_score.getD 0)).map
          EpEntry.metadata :=
      List.mem_map_of_mem EpEntry.metadata (List.mem_filter.mpr ⟨hs, by simpa using hscore⟩)
    have hlen2 : (((store.filter
        (fun stored => (7 : ℚ)/10 ≤ stored.metadata.outcome_score.getD 0)).map
          EpEntry.metadata).insertionSort (fun a b => tsKeyStr b ≤ tsKeyStr a)).length
        ≤ limit := by
      rw [List.length_insertionSort, List.length_map]
      exact hlen
    rw [List.take_of_length_le hlen2, List.mem_insertionSort]
    exact hmemS

theorem recentSuccesses_spec_witness :
    ep075 ∈ getRecentSuccesses 10 store075 :=
  (recentSuccesses_spec 10 store075).2.2.2
    ⟨"e1", createEmbedding (fun _ => 0) (episodeToText ep075), episodeToText ep075, ep075⟩
    (by simp [store075, epStore]) (by norm_num [ep075])
    (by norm_num [store075, epStore, ep075, List.filter])

/-! ## C4: the RFM score -/

theorem key_pyMaxBy (key : α → WithBot ℚ) :
    ∀ (l : List α) (a : α), key (pyMaxBy key a l) = (l.map key).foldl max (key a) := by
  intro l
  induction l with
  | nil => intro a; rfl
  | cons x xs ih =>
      intro a
      show key (xs.foldl _ (if key a < key x then x else a)) = _
      have hstep : key (if key a < key x then x else a) = max (key a) (key x) := by
        split
        · rename_i hlt
          exact (max_eq_right (le_of_lt hlt)).symm
        · rename_i hlt
          exact (max_eq_left (not_lt.mp hlt)).symm
      rw [show xs.foldl (fun acc x => if key acc < key x then x else acc)
            (if key a < key x then x else a) = pyMaxBy key (if key a < key x then x else a) xs
          from rfl,
        ih, hstep, List.map_cons, List.foldl_cons]

theorem getD_eq_unbot'_tsKey (o : Option ℚ) (d : ℚ) :
    o.getD d = (tsKey o).unbot' d := by
  cases o with
  | none => simp [tsKey, WithBot.unbot'_bot]
  | some q => simp [tsKey, WithBot.unbot'_coe]

theorem lastTs_eq (now : ℚ) (h : InteractionRecord) (t : List InteractionRecord) :
    (pyMaxBy (fun r => tsKey r.timestamp) h t).timestamp.getD now =
      (((h :: t).map (fun r => tsKey r.timestamp)).foldl max ⊥).unbot' now := by
  rw [getD_eq_unbot'_tsKey]
  have := key_pyMaxBy (fun r => tsKey r.timestamp) t h
  rw [this, List.map_cons, List.foldl_cons, max_eq_right (bot_le : ⊥ ≤ tsKey h.timestamp)]

/-- C4: `_calculate_rfm_score` computes exactly the spec's formula:
`rfm = round((recency + frequency + monetary)/3, 3)` with
`recency = max(0, 1 - days_since_last_interaction/30)` taken from the most
recent interaction, `frequency = min(1, interaction_count/10)` and
`monetary = 0.5`; in particular the empty history scores `0.0`, and a
single interaction dated now scores `recency = 1.0`, `frequency = 0.1`,
`monetary = 0.5` and `rfm_score = 0.533`. -/
theorem rfmScore_spec (now : ℚ) (hist : List InteractionRecord) :
    calcRfm now hist = specRfm now hist ∧
    calcRfm now [] = 0 ∧
    recencyScore now [⟨"conv", 1, "s", some now⟩] = 1 ∧
    frequencyScore [⟨"conv", 1, "s", some now⟩] = 1/10 ∧
    calcRfm now [⟨"conv", 1, "s", some now⟩] =
      pyRound3 ((1 + 1/10 + 1/2) / 3) ∧
    calcRfm now [⟨"conv", 1, "s", some now⟩] = 533/1000 := by
  have hmain : ∀ (n : ℚ) (l : List InteractionRecord), calcRfm n l = specRfm n l := by
    intro n l
    cases l with
    | nil => rfl
    | cons h t =>
        unfold calcRfm specRfm recencyScore frequencyScore
        rw [if_neg (List.cons_ne_nil h t)]
        dsimp only
        rw [lastTs_eq n h t]
  have hsingle : calcRfm now [⟨"conv", 1, "s", some now⟩] =
      pyRound3 ((1 + 1/10 + 1/2) / 3) := by
    unfold calcRfm pyMaxBy
    simp only [List.foldl_nil, Option.getD_some, List.length_cons, List.length_nil]
    norm_num
  have h533 : pyRound3 ((1 + 1/10 + 1/2) / 3) = 533/1000 := by
    unfold pyRound3 pyRound
    have hval : ((1 : ℚ) + 1/10 + 1/2) / 3 * 1000 = 1600/3 := by norm_num
    have hfloor : ⌊(1600 : ℚ)/3⌋ = 533 := by
      rw [Int.floor_eq_iff]
      norm_num
    rw [hval, hfloor]
    norm_num
  refine ⟨hmain now hist, rfl, ?_, ?_, hsingle, hsingle.trans h533⟩
  · unfold recencyScore
    simp only [List.map_cons, List.map_nil, List.foldl_cons, List.foldl_nil, tsKey]
    rw [max_eq_right (bot_le : (⊥ : WithBot ℚ) ≤ _), WithBot.unbot'_coe]
    norm_num
  · unfold frequencyScore
    norm_num

/-! ## C1: consolidation after exactly five short-term writes -/

theorem storeShortTerm_fresh (now : ℚ) (cid lid : String) (ctx : List (String × String))
    (st : MemState) (h : alookup cid st.stm = none) :
    storeShortTerm now cid lid ctx none st =
      (true,
        { st with stm := aset cid ⟨⟨cid, lid, ctx, now, 1⟩, some (now + 3600)⟩ st.stm },
        []) := by
  simp only [storeShortTerm, stmGet_absent_of_alookup_none cid now st.stm h, stmStore]
  norm_num

theorem storeShortTerm_live_low (now : ℚ) (cid lid : String) (ctx : List (String × String))
    (st : MemState) (d : STRecord) (exp : ℚ)
    (h : alookup cid st.stm = some ⟨d, some exp⟩) (hexp : now ≤ exp)
    (hcnt : d.interaction_count + 1 < 5) :
    storeShortTerm now cid lid ctx none st =
      (true,
        { st with stm := (aset cid
            ⟨⟨cid, lid, ctx, now, d.interaction_count + 1⟩, some (now + 3600)⟩
            st.stm) },
        []) := by
  have hget : stmGet cid now st.stm = (some d, st.stm) := by
    simp [stmGet, h, not_lt.mpr hexp]
  simp only [storeShortTerm, hget, stmStore]
  norm_num [not_le.mpr hcnt]

theorem storeShortTerm_live_five (now : ℚ) (cid lid : String) (ctx : List (String × String))
    (st : MemState) (d : STRecord) (exp : ℚ)
    (h : alookup cid st.stm = some ⟨d, some exp⟩) (hexp : now ≤ exp)
    (hcnt : d.interaction_count + 1 = 5) (hlid : lid ≠ "") :
    storeShortTerm now cid lid ctx none st =
      (true,
        { st with
            stm := aset cid ⟨⟨cid, lid, ctx, now, 5⟩, some (now + 3600)⟩ st.stm
            ltm := aset lid (consolidatedWrite now cid lid ctx st.ltm) st.ltm },
        [consolidatedWrite now cid lid ctx st.ltm]) := by
  have hget : stmGet cid now st.stm = (some d, st.stm) := by
    simp [stmGet, h, not_lt.mpr hexp]
  simp only [storeShortTerm, hget, stmStore, hcnt]
  norm_num
  unfold consolidateToLongTerm getLongTerm storeLongTerm consolidatedWrite
  rw [if_neg hlid]
  dsimp only
  cases alookup lid st.ltm <;> simp

theorem storeShortTerm_live_emptyLead (now : ℚ) (cid : String)
    (ctx : List (String × String)) (st : MemState) (d : STRecord) (exp : ℚ)
    (h : alookup cid st.stm = some ⟨d, some exp⟩) (hexp : now ≤ exp)
    (hcnt : 5 ≤ d.interaction_count + 1) :
    storeShortTerm now cid "" ctx none st =
      (true,
        { st with stm := (aset cid
            ⟨⟨cid, "", ctx, now, d.interaction_count + 1⟩, some (now + 3600)⟩
            st.stm) },
        []) := by
  have hget : stmGet cid now st.stm = (some d, st.stm) := by
    simp [stmGet, h, not_lt.mpr hexp]
  simp only [storeShortTerm, hget, stmStore]
  norm_num [hcnt]
  unfold consolidateToLongTerm
  norm_num

/-- C1, amended: For every conversation id and *non-empty* lead id
(`_consolidate_to_long_term` silently skips a falsy `lead_id`, see the
counterexample), issuing exactly five `store_short_term` calls for that
conversation — here issued back-to-back at one instant, with no prior
short-term entry — triggers exactly one long-term profile write for that
lead, whose preferences are the ones extracted from the recognized context
keys merged into any existing profile and whose history is the existing
history with the one summarized interaction record appended. -/
theorem consolidation_exactly_once (now : ℚ) (cid lid : String) (hlid : lid ≠ "")
    (ctx : List (String × String)) (st0 : MemState)
    (h0 : alookup cid st0.stm = none) :
    (runFive now cid lid ctx st0).2 = [consolidatedWrite now cid lid ctx st0.ltm] ∧
    (consolidatedWrite now cid lid ctx st0.ltm).lead_id = lid ∧
    (consolidatedWrite now cid lid ctx st0.ltm).preferences =
      (match alookup lid st0.ltm with
        | some lt => dictUpdate lt.preferences (extractPreferences ctx)
        | none => extractPreferences ctx) ∧
    (consolidatedWrite now cid lid ctx st0.ltm).interaction_history =
      (match alookup lid st0.ltm with
        | some lt => lt.interaction_history
        | none => []) ++ [⟨cid, 5, summarizeContext ctx, some now⟩] := by
  have hexp : now ≤ now + 3600 := by linarith
  have h1 := storeShortTerm_fresh now cid lid ctx st0 h0
  have h2 := storeShortTerm_live_low now cid lid ctx
    { st0 with stm := aset cid ⟨⟨cid, lid, ctx, now, 1⟩, some (now + 3600)⟩ st0.stm }
    ⟨cid, lid, ctx, now, 1⟩ (now + 3600) (alookup_aset_self _ _ _) hexp (by norm_num)
  have h3 := storeShortTerm_live_low now cid lid ctx
    { st0 with stm := (aset cid
        ⟨⟨cid, lid, ctx, now, 2⟩, some (now + 3600)⟩
        (aset cid ⟨⟨cid, lid, ctx, now, 1⟩, some (now + 3600)⟩ st0.stm)) }
    ⟨cid, lid, ctx, now, 2⟩ (now + 3600) (alookup_aset_self _ _ _) hexp (by norm_num)
  have h4 := storeShortTerm_live_low now cid lid ctx
    { st0 with stm := (aset cid
        ⟨⟨cid, lid, ctx, now, 3⟩, some (now + 3600)⟩
        (aset cid
          ⟨⟨cid, lid, ctx, now, 2⟩, some (now + 3600)⟩
          (aset cid ⟨⟨cid, lid, ctx, now, 1⟩, some (now + 3600)⟩ st0.stm))) }
    ⟨cid, lid, ctx, now, 3⟩ (now + 3600) (alookup_aset_self _ _ _) hexp (by norm_num)
  have h5 := storeShortTerm_live_five now cid lid ctx
    { st0 with stm := (aset cid
        ⟨⟨cid, lid, ctx, now, 4⟩, some (now + 3600)⟩
        (aset cid
          ⟨⟨cid, lid, ctx, now, 3⟩, some (now + 3600)⟩
          (aset cid
            ⟨⟨cid, lid, ctx, now, 2⟩, some (now + 3600)⟩
            (aset cid ⟨⟨cid, lid, ctx, now, 1⟩, some (now + 3600)⟩ st0.stm)))) }
    ⟨cid, lid, ctx, now, 4⟩ (now + 3600) (alookup_aset_self _ _ _) hexp (by norm_num) hlid
  norm_num at h2 h3 h4 h5
  refine ⟨?_, rfl, ?_, ?_⟩
  · simp only [runFive, h1, h2, h3, h4, h5, List.nil_append]
  · rcases h : alookup lid st0.ltm with _ | lt <;> simp [consolidatedWrite, h]
  · rcases h : alookup lid st0.ltm with _ | lt <;> simp [consolidatedWrite, h]

/-- C1, counterexample: The claim quantifies over every `lead_id`, but
with the falsy lead id `""` five `store_short_term` calls for one
conversation trigger *zero* long-term writes, not exactly one:
`_consolidate_to_long_term` returns early on `if not lead_id`. -/
theorem consolidation_empty_lead_counterexample :
    (runFive 0 "c" "" [] MemState.empty).2 = [] ∧
    (runFive 0 "c" "" [] MemState.empty).2.length ≠ 1 := by
  have hexp : (0 : ℚ) ≤ 0 + 3600 := by norm_num
  have h1 := storeShortTerm_fresh 0 "c" "" [] MemState.empty rfl
  have h2 := storeShortTerm_live_low 0 "c" "" []
    { MemState.empty with stm := aset "c" ⟨⟨"c", "", [], 0, 1⟩, some (0 + 3600)⟩ [] }
    ⟨"c", "", [], 0, 1⟩ (0 + 3600) (alookup_aset_self _ _ _) hexp (by norm_num)
  have h3 := storeShortTerm_live_low 0 "c" "" []
    { MemState.empty with stm := (aset "c"
        ⟨⟨"c", "", [], 0, 2⟩, some (0 + 3600)⟩
        (aset "c" ⟨⟨"c", "", [], 0, 1⟩, some (0 + 3600)⟩ [])) }
    ⟨"c", "", [], 0, 2⟩ (0 + 3600) (alookup_aset_self _ _ _) hexp (by norm_num)
  have h4 := storeShortTerm_live_low 0 "c" "" []
    { MemState.empty with stm := (aset "c"
        ⟨⟨"c", "", [], 0, 3⟩, some (0 + 3600)⟩
        (aset "c"
          ⟨⟨"c", "", [], 0, 2⟩, some (0 + 3600)⟩
          (aset "c" ⟨⟨"c", "", [], 0, 1⟩, some (0 + 3600)⟩ []))) }
    ⟨"c", "", [], 0, 3⟩ (0 + 3600) (alookup_aset_self _ _ _) hexp (by norm_num)
  have h5 := storeShortTerm_live_emptyLead 0 "c" []
    { MemState.empty with stm := (aset "c"
        ⟨⟨"c", "", [], 0, 4⟩, some (0 + 3600)⟩
        (aset "c"
          ⟨⟨"c", "", [], 0, 3⟩, some (0 + 3600)⟩
          (aset "c"
            ⟨⟨"c", "", [], 0, 2⟩, some (0 + 3600)⟩
            (aset "c" ⟨⟨"c", "", [], 0, 1⟩, some (0 + 3600)⟩ [])))) }
    ⟨"c", "", [], 0, 4⟩ (0 + 3600) (alookup_aset_self _ _ _) hexp (by norm_num)
  simp only [MemState.empty] at h1 h2 h3 h4 h5
  norm_num at h1 h2 h3 h4 h5
  constructor
  · simp only [runFive, MemState.empty, h1, h2, h3, h4, h5, List.append_nil,
      List.nil_append]
  · simp only [runFive, MemState.empty, h1, h2, h3, h4, h5, List.append_nil,
      List.nil_append]
    norm_num

theorem consolidation_exactly_once_witness :
    (runFive 0 "c" "lead1" [] MemState.empty).2 =
      [consolidatedWrite 0 "c" "lead1" [] []] :=
  (consolidation_exactly_once 0 "c" "lead1" (by decide) [] MemState.empty rfl).1
